import Mathlib

/-!
Shallow embedding of the connector registry and tool-dispatch core of the
coreassist-electron backend (`src/backend/registry.py`, `src/backend/main.py`,
`src/backend/auth/store.py`).

Python JSON-like values are modelled by `JValue`; Python dicts by insertion
ordered association lists with unique keys (`Dict`); the registry map
(`self.connectors`, a Python dict, insertion ordered) by `Registry`.
Python exceptions are modelled by `Except PyErr`.
-/

/-- A Python/JSON value as it appears in manifests, parameters and results. -/
inductive JValue where
  | vnull : JValue
  | vbool : Bool → JValue
  | vnum : Int → JValue
  | vstr : String → JValue
  | varr : List JValue → JValue
  | vobj : List (String × JValue) → JValue

/-- A Python dict with string keys, modelled as an insertion-ordered
association list whose keys are unique. -/
abbrev Dict := List (String × JValue)

/-- Python exceptions raised by the modelled code paths. -/
inductive PyErr where
  | valueError : String → PyErr
  | keyError : String → PyErr
  | typeError : String → PyErr
  | attributeError : String → PyErr
  | fileNotFoundError : String → PyErr
  | importError : String → PyErr
  | jsonDecodeError : String → PyErr
  | otherError : String → PyErr
deriving DecidableEq

/-- Python `str(e)` for an exception: a `ValueError`'s message is its
argument; `str` of a `KeyError` is the repr (quoted) key; other modelled
exceptions render their message. -/
def pyErrStr : PyErr → String
  | .valueError m => m
  | .keyError k => "'" ++ k ++ "'"
  | .typeError m => m
  | .attributeError m => m
  | .fileNotFoundError m => m
  | .importError m => m
  | .jsonDecodeError m => m
  | .otherError m => m

/-- Python `d.get(k)` / `k in d`: first (unique) binding of `k`. -/
def dictGet (d : Dict) (k : String) : Option JValue :=
  match d with
  | [] => none
  | p :: rest => if p.1 == k then some p.2 else dictGet rest k

/-- Python `d[k]`: raises `KeyError` when the key is absent. -/
def dictGetItem (d : Dict) (k : String) : Except PyErr JValue :=
  match dictGet d k with
  | some v => .ok v
  | none => .error (.keyError k)

/-- Python `d[k] = v` on a dict: replaces the value in place when the key
exists (keeping its position in insertion order), otherwise appends. -/
def dictSet (d : Dict) (k : String) (v : JValue) : Dict :=
  match d with
  | [] => [(k, v)]
  | p :: rest => if p.1 == k then (k, v) :: rest else p :: dictSet rest k v

/-- Python `'.' in tool_name`. -/
def strHasDot (s : String) : Bool :=
  s.data.any (fun c => c == '.')

/-- Characters before / after the first `'.'` of a character list. -/
def splitCharsDot : List Char → List Char × List Char
  | [] => ([], [])
  | c :: cs =>
      if c == '.' then ([], cs)
      else
        let r := splitCharsDot cs
        (c :: r.1, r.2)

/-- Python `tool_name.split('.', 1)` (as a pair), used only on names that
contain a `'.'`: the part before the first dot and everything after it.
`tool_name.split('.')[0]` is the same first component. -/
def splitDot1 (s : String) : String × String :=
  let r := splitCharsDot s.data
  (String.mk r.1, String.mk r.2)

/-- Python `s.split(sep)` on characters (no maxsplit). -/
def splitCharsOn (sep : Char) : List Char → List (List Char)
  | [] => [[]]
  | c :: cs =>
      let r := splitCharsOn sep cs
      if c == sep then [] :: r
      else
        match r with
        | [] => [[c]]
        | g :: gs => (c :: g) :: gs

/-- Python `str.capitalize()` restricted to ASCII: first character
uppercased, the rest lowercased. -/
def pyCapitalize (s : String) : String :=
  match s.data with
  | [] => ""
  | c :: cs => String.mk (c.toUpper :: cs.map Char.toLower)

/-- Python `str(x)` as used in the f-string of `get_namespaced_tools`.
Only string tool names are exercised by any theorem below (see `WFconn`);
the container cases would be Python's full repr and are collapsed to a
placeholder that no theorem depends on. -/
def pyStr : JValue → String
  | .vnull => "None"
  | .vbool b => if b then "True" else "False"
  | .vnum n => toString n
  | .vstr s => s
  | .varr _ => "<list repr not modelled>"
  | .vobj _ => "<dict repr not modelled>"

/-- A loaded connector (`Connector` in `registry.py`), in its post-`__init__`
state: its name, its loaded `manifest` (the JSON object returned by
`_load_manifest`), and the behaviour of its abstract `execute` method
(`tool_name`, `parameters`, `auth_data`; it may return a dict or raise). -/
structure Connector where
  connector_name : String
  manifest : Dict
  exec : String → Dict → Option Dict → Except PyErr Dict

/-- The registry map `self.connectors : Dict[str, Connector]` — a Python
dict, hence an insertion-ordered association list with unique keys;
list order is registration order. -/
abbrev Registry := List (String × Connector)

/-- Python `name in self.connectors` / `self.connectors[name]` combined:
the value bound to `name`, if any. -/
def regFind (r : Registry) (k : String) : Option Connector :=
  match r with
  | [] => none
  | p :: rest => if p.1 == k then some p.2 else regFind rest k

/-- Python `self.connectors[k] = v`: replace in place when the key exists,
otherwise append (dict insertion order). -/
def regSet (r : Registry) (k : String) (v : Connector) : Registry :=
  match r with
  | [] => [(k, v)]
  | p :: rest => if p.1 == k then (k, v) :: rest else p :: regSet rest k v

/-- Python `del self.connectors[k]` (the key is unique when present). -/
def regDel (r : Registry) (k : String) : Registry :=
  match r with
  | [] => []
  | p :: rest => if p.1 == k then rest else p :: regDel rest k

/-- `Connector.get_tools`: `self.manifest.get("tools", [])`. A manifest
whose `tools` value is not a list would fault in Python only when iterated;
that shape is outside every theorem's well-formedness assumption
(`WFconn`) and is collapsed to the empty catalog here. -/
def get_tools (c : Connector) : List JValue :=
  match dictGet c.manifest "tools" with
  | some (.varr xs) => xs
  | some _ => []
  | none => []

/-- Python `tool['name']` where `tool` is an arbitrary JSON value: a
non-dict raises `TypeError` (string subscripts), a dict without the key
raises `KeyError`. -/
def jGetItem (t : JValue) (k : String) : Except PyErr JValue :=
  match t with
  | .vobj d => dictGetItem d k
  | _ => .error (.typeError "value is not subscriptable by string key")

/-- One iteration of `get_namespaced_tools`'s loop body:
`namespaced_tool = tool.copy(); namespaced_tool["name"] =
f"{self.connector_name}.{tool['name']}"`. The f-string (and hence
`tool['name']`) is evaluated before the item assignment; a non-dict tool
raises at `tool.copy()`. -/
def namespaceTool (cname : String) (t : JValue) : Except PyErr JValue :=
  match t with
  | .vobj d =>
      match dictGetItem d "name" with
      | .ok nv => .ok (.vobj (dictSet d "name" (.vstr (cname ++ "." ++ pyStr nv))))
      | .error e => .error e
  | _ => .error (.attributeError "object has no attribute copy")

/-- The loop of `get_namespaced_tools`: build the rewritten descriptors in
catalog order; the first faulting tool aborts the whole call. -/
def get_namespaced_tools_loop (cname : String) : List JValue → Except PyErr (List JValue)
  | [] => .ok []
  | t :: rest =>
      match namespaceTool cname t with
      | .ok nt =>
          match get_namespaced_tools_loop cname rest with
          | .ok r2 => .ok (nt :: r2)
          | .error e => .error e
      | .error e => .error e

/-- `Connector.get_namespaced_tools`: the catalog with each tool's name
rewritten to `"<connector_name>.<tool name>"`, built from copies. -/
def get_namespaced_tools (c : Connector) : Except PyErr (List JValue) :=
  get_namespaced_tools_loop c.connector_name (get_tools c)

/-- The inner loop of `get_connector_for_tool`:
`for tool in tools: if tool['name'] == name: ...` — `True` as soon as a
tool's `'name'` item equals the string `name`. -/
def scanToolsFor (ts : List JValue) (name : String) : Except PyErr Bool :=
  match ts with
  | [] => .ok false
  | t :: rest =>
      match jGetItem t "name" with
      | .ok (.vstr s) => if s == name then .ok true else scanToolsFor rest name
      | .ok _ => scanToolsFor rest name
      | .error e => .error e

/-- The outer loop of the bare-name branch of `get_connector_for_tool`:
first connector (in registration order) declaring the name. -/
def scanConnectors (cs : List Connector) (name : String) : Except PyErr (Option Connector) :=
  match cs with
  | [] => .ok none
  | c :: rest =>
      match scanToolsFor (get_tools c) name with
      | .ok true => .ok (some c)
      | .ok false => scanConnectors rest name
      | .error e => .error e

/-- `ConnectorRegistry.get_connector_for_tool`: namespaced names are split
at the first `'.'` and checked against that unit's own catalog; bare names
are resolved by scanning units in registration order. -/
def get_connector_for_tool (r : Registry) (tool_name : String) : Except PyErr (Option Connector) :=
  if strHasDot tool_name then
    match regFind r (splitDot1 tool_name).1 with
    | some c =>
        match scanToolsFor (get_tools c) (splitDot1 tool_name).2 with
        | .ok true => .ok (some c)
        | .ok false => .ok none
        | .error e => .error e
    | none => .ok none
  else
    scanConnectors (r.map Prod.snd) tool_name

/-- The loop of `ConnectorRegistry.get_all_tools` over
`self.connectors.values()`: extend with the namespaced catalog, then with
the bare catalog, connector by connector. -/
def get_all_tools_loop (cs : List Connector) : Except PyErr (List JValue) :=
  match cs with
  | [] => .ok []
  | c :: rest =>
      match get_namespaced_tools c with
      | .ok ns =>
          match get_all_tools_loop rest with
          | .ok r2 => .ok (ns ++ get_tools c ++ r2)
          | .error e => .error e
      | .error e => .error e

/-- `ConnectorRegistry.get_all_tools`. -/
def get_all_tools (r : Registry) : Except PyErr (List JValue) :=
  get_all_tools_loop (r.map Prod.snd)

/-- `ConnectorRegistry.execute_tool`: resolve, raise `ValueError` when no
connector is found, strip the namespace, forward to the unit's `execute`. -/
def execute_tool (r : Registry) (tool_name : String) (params : Dict)
    (auth_data : Option Dict) : Except PyErr Dict :=
  match get_connector_for_tool r tool_name with
  | .error e => .error e
  | .ok none => .error (.valueError ("No connector found for tool: " ++ tool_name))
  | .ok (some c) =>
      let actual := if strHasDot tool_name then (splitDot1 tool_name).2 else tool_name
      c.exec actual params auth_data

/-- A stored credential record, as created by
`AuthStore.store_connector_credentials` (`{"credentials": ..., "stored_at":
...}`): always a non-empty — hence truthy — wrapper dict around the
credentials. The timestamp plays no role in any modelled path. -/
structure CredEntry where
  credentials : Dict

/-- The state of `AuthStore` that `call_tool` reads: `self.users` and
`self.connector_credentials`, both Python dicts keyed by user id. -/
structure AuthStoreSt where
  users : List (String × Dict)
  connector_credentials : List (String × List (String × CredEntry))

/-- Association-list lookup for the auth-store maps (Python dict `.get`). -/
def alistGet {α : Type} (d : List (String × α)) (k : String) : Option α :=
  match d with
  | [] => none
  | p :: rest => if p.1 == k then some p.2 else alistGet rest k

/-- `AuthStore.get_user`. -/
def get_user (st : AuthStoreSt) (user_id : String) : Option Dict :=
  alistGet st.users user_id

/-- `AuthStore.get_connector_credentials`: `.get(user_id, {})`, then
`.get(connector_name)`; a present (always truthy) entry yields its
`credentials` value, otherwise `None`. -/
def get_connector_credentials (st : AuthStoreSt) (user_id connector_name : String) : Option Dict :=
  match alistGet st.connector_credentials user_id with
  | none => none
  | some m => (alistGet m connector_name).map CredEntry.credentials

/-- The body of `/tools/call` (`main.py`). -/
structure ToolCallRequest where
  tool_name : String
  parameters : Dict
  user_id : Option String

/-- `ToolCallResponse` of `main.py` (`result` defaults to `{}`). -/
structure ToolCallResponse where
  success : Bool
  result : Dict
  error : Option String

/-- Python truthiness of a string (`if request.user_id:` /
`if connector_name:`): non-empty. -/
def strTruthy (s : String) : Bool :=
  !s.data.isEmpty

/-- The credential block of `call_tool` (`main.py` lines 143-151):
`auth_data` stays `None` unless `user_id` is truthy, the user lookup is
truthy, the tool name contains `'.'`, and the prefix before the first dot
(`tool_name.split('.')[0]`) is non-empty; then the credential store is
queried for `(user_id, prefix)`. -/
def computeAuth (st : AuthStoreSt) (req : ToolCallRequest) : Option Dict :=
  match req.user_id with
  | none => none
  | some uid =>
      if strTruthy uid then
        match get_user st uid with
        | none => none
        | some udata =>
            if udata.isEmpty then none
            else
              if strHasDot req.tool_name then
                let cname := (splitDot1 req.tool_name).1
                if strTruthy cname then get_connector_credentials st uid cname
                else none
              else none
      else none

/-- The envelope produced by `call_tool`'s exception handlers: `ValueError`
is caught first (`"Tool not found: ..."`), any other exception second
(`"Tool execution failed: ..."`). -/
def respErrMsg : PyErr → String
  | .valueError m => "Tool not found: " ++ m
  | e => "Tool execution failed: " ++ pyErrStr e

/-- `call_tool` (`main.py`): compute `auth_data`, run
`registry.execute_tool`, wrap a returned dict as `success=True`, and turn
any raised exception into a `success=False` response — every path yields a
`ToolCallResponse`. -/
def call_tool (st : AuthStoreSt) (r : Registry) (req : ToolCallRequest) : ToolCallResponse :=
  match execute_tool r req.tool_name req.parameters (computeAuth st req) with
  | .ok d => { success := true, result := d, error := none }
  | .error e => { success := false, result := [], error := some (respErrMsg e) }

/-- `Connector._load_manifest`, abstracted over the filesystem: the
manifest source is `none` when `manifest.json` does not exist (Python
raises `FileNotFoundError`), `some (.error m)` when the file exists but
`json.load` fails (raises), and `some (.ok d)` when it parses to the JSON
object `d`, which is returned as is — no further validation happens. -/
def load_manifest (src : Option (Except String Dict)) (connector_name : String) :
    Except PyErr Dict :=
  match src with
  | none => .error (.fileNotFoundError ("No manifest.json found for connector " ++ connector_name))
  | some (.error m) => .error (.jsonDecodeError m)
  | some (.ok d) => .ok d

/-- What the loader finds for one candidate connector directory:
whether `spec_from_file_location` yields a usable spec and loader, whether
`exec_module` raises, the attribute names the executed module exposes, and
what instantiating the connector class returns (the constructor runs
`_load_manifest`, so it may raise). `none` at the filesystem level means
no `connector.py` exists for the name. -/
structure UnitEnv where
  importable : Bool
  execFault : Option PyErr
  attrs : List String
  make : Except PyErr Connector

/-- The class-name derivation of `_load_connector`:
`"".join(word.capitalize() for word in connector_name.split('_')) +
"Connector"`. -/
def deriveClassName (name : String) : String :=
  String.join (((splitCharsOn '_' name.data).map String.mk).map pyCapitalize) ++ "Connector"

/-- `ConnectorRegistry._load_connector` against a modelled filesystem
`fs`: missing `connector.py` raises `FileNotFoundError`; an unusable
module spec raises `ImportError`; `exec_module` faults propagate; a module
without the conventionally named class raises `AttributeError`; otherwise
the instantiated connector is produced (to be inserted by the caller —
in Python the insertion is the final statement of this method, so a raise
leaves the registry untouched). -/
def load_connector1 (fs : String → Option UnitEnv) (name : String) : Except PyErr Connector :=
  match fs name with
  | none => .error (.fileNotFoundError ("No connector.py found for " ++ name))
  | some env =>
      if !env.importable then .error (.importError ("Could not load connector module for " ++ name))
      else
        match env.execFault with
        | some e => .error e
        | none =>
            if !(env.attrs.contains (deriveClassName name)) then
              .error (.attributeError ("No " ++ deriveClassName name ++ " class found in " ++ name))
            else env.make

/-- Python `name.startswith('_')`. -/
def startsWithUnderscore (s : String) : Bool :=
  match s.data with
  | [] => false
  | c :: _ => c == '_'

/-- One iteration of `_load_connectors`: directories starting with `'_'`
are skipped, a failing `_load_connector` is caught, logged and skipped,
a successful one has registered itself. -/
def load_all_step (fs : String → Option UnitEnv) (reg : Registry) (n : String) : Registry :=
  if startsWithUnderscore n then reg
  else
    match load_connector1 fs n with
    | .ok c => regSet reg n c
    | .error _ => reg

/-- `ConnectorRegistry._load_connectors`: iterate the candidate connector
directories (`dirs`), best effort, starting from the empty registry of
`__init__`. -/
def load_all (fs : String → Option UnitEnv) (dirs : List String) : Registry :=
  dirs.foldl (load_all_step fs) []

/-- `ConnectorRegistry.reload_connector`: delete the existing entry when
present, then `_load_connector`; on success the fresh connector is
registered (at the end of the insertion order), on failure the exception
propagates to the caller with the entry already removed. The second
component records the raised exception, if any. -/
def reload_connector (fs : String → Option UnitEnv) (r : Registry) (name : String) :
    Registry × Option PyErr :=
  let r1 := if (regFind r name).isSome then regDel r name else r
  match load_connector1 fs name with
  | .ok c => (regSet r1 name c, none)
  | .error e => (r1, some e)

/-!
Well-formedness: the shapes every manifest shipped in the repository has
(`tools` absent or a list of objects, each with a string `"name"`). The
resolution and catalog functions are total on these shapes.
-/

/-- A tool entry is an object carrying a string `"name"`. -/
def toolOk (t : JValue) : Bool :=
  match t with
  | .vobj d =>
      match dictGet d "name" with
      | some (.vstr _) => true
      | _ => false
  | _ => false

/-- A manifest's `tools` entry is absent or a list of well-formed tools. -/
def manifestToolsOk (m : Dict) : Bool :=
  match dictGet m "tools" with
  | none => true
  | some (.varr xs) => xs.all toolOk
  | some _ => false

/-- Well-formed connector: its loaded manifest passes `manifestToolsOk`. -/
def WFconn (c : Connector) : Bool :=
  manifestToolsOk c.manifest

/-- Well-formed registry: every registered connector is well-formed. -/
def WFreg (r : Registry) : Bool :=
  r.all fun p => WFconn p.2

/-- Whether a tool entry is an object whose string `"name"` equals `n`
(the pure value of one iteration of the membership scan). -/
def toolMatches (n : String) (t : JValue) : Bool :=
  match t with
  | .vobj d =>
      match dictGet d "name" with
      | some (.vstr s) => s == n
      | _ => false
  | _ => false

/-- Whether connector `c`'s own un-namespaced catalog declares a tool
named exactly `n` (pure mirror of the membership scan, total on
well-formed connectors). -/
def hasToolNamed (c : Connector) (n : String) : Bool :=
  (get_tools c).any (toolMatches n)

/-- The string name of a well-formed tool entry (`""` on unmodelled
shapes, which `WFconn` excludes). -/
def toolNameStr (t : JValue) : String :=
  match t with
  | .vobj d =>
      match dictGet d "name" with
      | some (.vstr s) => s
      | _ => ""
  | _ => ""

/-- The name rewrite a single descriptor undergoes, as the spec describes
it: the `"name"` field becomes `"<unit_name>.<tool_name>"`, everything
else is untouched (identity on shapes `WFconn` excludes). -/
def namespaceToolPure (cname : String) (t : JValue) : JValue :=
  match t with
  | .vobj d => .vobj (dictSet d "name" (.vstr (cname ++ "." ++ toolNameStr t)))
  | x => x

/-- The namespaced catalog as the spec describes it: each descriptor of
the bare catalog with its name rewritten, in catalog order. -/
def namespacedCatalogSpec (c : Connector) : List JValue :=
  (get_tools c).map (namespaceToolPure c.connector_name)

/-- Resolution at the level of registry entries (key and connector): the
same algorithm as `get_connector_for_tool` on well-formed registries, but
remembering which registry entry answered — the Lean rendering of Python
object identity, used to state which unit a name resolves to. -/
def resolveEntryBare (r : Registry) (t : String) : Option (String × Connector) :=
  match r with
  | [] => none
  | p :: rest => if hasToolNamed p.2 t then some p else resolveEntryBare rest t

/-- Entry-level resolution for both name forms (see `resolveEntryBare`). -/
def resolveEntry (r : Registry) (t : String) : Option (String × Connector) :=
  if strHasDot t then
    match regFind r (splitDot1 t).1 with
    | some c => if hasToolNamed c (splitDot1 t).2 then some ((splitDot1 t).1, c) else none
    | none => none
  else resolveEntryBare r t

/-!
Concrete fixtures, mirroring the shipped connectors (`slack` with
`send_message`, a tasks unit with `create_task`) and small synthetic units
used to exercise the edge cases of the claims.
-/

/-- A manifest tool entry with a name and a description. -/
def mkTool (n d : String) : JValue :=
  .vobj [("name", .vstr n), ("description", .vstr d)]

/-- The `slack` connector with its `send_message` tool. -/
def slackC : Connector where
  connector_name := "slack"
  manifest := [("tools", .varr [mkTool "send_message" "Send a message to a Slack channel"])]
  exec := fun _ _ _ => .ok [("ok", .vbool true)]

/-- A tasks connector with a `create_task` tool. -/
def tasksC : Connector where
  connector_name := "tasks"
  manifest := [("tools", .varr [mkTool "create_task" "Create a task"])]
  exec := fun _ _ _ => .ok [("ok", .vbool true)]

/-- Registry with `slack` then `tasks`, in that registration order. -/
def regST : Registry := [("slack", slackC), ("tasks", tasksC)]

/-- First of two units that both declare a tool named `x`. -/
def c1x : Connector where
  connector_name := "u1"
  manifest := [("tools", .varr [mkTool "x" "x from u1"])]
  exec := fun _ _ _ => .ok []

/-- Second of two units that both declare a tool named `x`. -/
def c2x : Connector where
  connector_name := "u2"
  manifest := [("tools", .varr [mkTool "x" "x from u2"])]
  exec := fun _ _ _ => .ok []

/-- Registry where `u1` and `u2` both declare `x`; `u1` registered first. -/
def regDup : Registry := [("u1", c1x), ("u2", c2x)]

/-- A unit whose `execute` returns an error payload instead of raising. -/
def errConn : Connector where
  connector_name := "u"
  manifest := [("tools", .varr [mkTool "etool" "returns an error payload"])]
  exec := fun _ _ _ => .ok [("error", .vstr "boom")]

/-- A unit whose `execute` raises an internal fault. -/
def raiseConn : Connector where
  connector_name := "w"
  manifest := [("tools", .varr [mkTool "rtool" "raises an internal fault"])]
  exec := fun _ _ _ => .error (.otherError "kaboom")

/-- Registry holding the error-returning and the raising unit. -/
def regMix : Registry := [("u", errConn), ("w", raiseConn)]

/-- A unit whose bare tool name itself contains a `'.'`. -/
def weirdC : Connector where
  connector_name := "u"
  manifest := [("tools", .varr [mkTool "weird.name" "bare name containing a dot"])]
  exec := fun _ _ _ => .ok []

/-- Registry holding only `weirdC` under the unit name `u`. -/
def regW : Registry := [("u", weirdC)]

/-- An empty auth store. -/
def stEmpty : AuthStoreSt := ⟨[], []⟩

/-- A sample credential payload. -/
def tokDict : Dict := [("access_token", .vstr "tok")]

/-- A store holding user `u1` and credentials for `(u1, slack)`. -/
def stC4 : AuthStoreSt :=
  ⟨[("u1", [("user_id", .vstr "u1")])], [("u1", [("slack", ⟨tokDict⟩)])]⟩

/-- A manifest tool entry with no `"name"` key. -/
def namelessTool : JValue := .vobj [("description", .vstr "no name here")]

/-- A parseable manifest whose single tool entry lacks a `"name"`. -/
def badManifest : Dict := [("tools", .varr [namelessTool])]

/-- A connector whose manifest has no `tools` list at all. -/
def noToolsConn : Connector where
  connector_name := "bare"
  manifest := [("info", .vobj [("title", .vstr "no capabilities yet")])]
  exec := fun _ _ _ => .ok []

/-- Loadable connector `good_one`. -/
def g1C : Connector where
  connector_name := "good_one"
  manifest := [("tools", .varr [mkTool "t1" "tool of good_one"])]
  exec := fun _ _ _ => .ok []

/-- Loadable connector `good_two`. -/
def g2C : Connector where
  connector_name := "good_two"
  manifest := [("tools", .varr [mkTool "t2" "tool of good_two"])]
  exec := fun _ _ _ => .ok []

/-- A modelled connectors directory: two loadable units, one whose module
lacks the conventionally named class, and no module for any other name. -/
def fs7 : String → Option UnitEnv := fun n =>
  if n == "good_one" then some ⟨true, none, ["GoodOneConnector"], .ok g1C⟩
  else if n == "broken" then some ⟨true, none, ["UnrelatedClass"], .ok g1C⟩
  else if n == "good_two" then some ⟨true, none, ["GoodTwoConnector"], .ok g2C⟩
  else none

/-- The directory scan order for `fs7`. -/
def dirs7 : List String := ["good_one", "broken", "_pycache", "good_two", "missing_mod"]

/-- A filesystem from which `u1` reloads successfully (same connector). -/
def fs8 : String → Option UnitEnv := fun n =>
  if n == "u1" then some ⟨true, none, ["U1Connector"], .ok c1x⟩ else none

/-!
Helper lemmas shared by the claim theorems.
-/

theorem toolOk_shape {t : JValue} (h : toolOk t = true) :
    ∃ d s, t = .vobj d ∧ dictGet d "name" = some (.vstr s) := by
  unfold toolOk at h
  split at h
  case h_1 d =>
    split at h
    case h_1 s hg => exact ⟨d, s, rfl, hg⟩
    case h_2 => exact absurd h (by simp)
  case h_2 => exact absurd h (by simp)

theorem getTools_allOk {c : Connector} (h : WFconn c = true) :
    (get_tools c).all toolOk = true := by
  unfold WFconn manifestToolsOk at h
  unfold get_tools
  cases hg : dictGet c.manifest "tools" with
  | none => rfl
  | some v =>
      rw [hg] at h
      cases v with
      | varr xs => exact h
      | vnull => exact absurd h (by simp)
      | vbool b => exact absurd h (by simp)
      | vnum n => exact absurd h (by simp)
      | vstr s => exact absurd h (by simp)
      | vobj d => exact absurd h (by simp)

theorem WFreg_mem {r : Registry} (h : WFreg r = true) {p : String × Connector}
    (hp : p ∈ r) : WFconn p.2 = true :=
  List.all_eq_true.mp h p hp

theorem WFreg_mem_snd {r : Registry} (h : WFreg r = true) {c : Connector}
    (hc : c ∈ r.map Prod.snd) : WFconn c = true := by
  obtain ⟨p, hp, rfl⟩ := List.mem_map.mp hc
  exact WFreg_mem h hp

theorem WFreg_find {r : Registry} (h : WFreg r = true) {k : String} {c : Connector}
    (hf : regFind r k = some c) : WFconn c = true := by
  induction r with
  | nil => exact absurd hf (by simp [regFind])
  | cons p rest ih =>
      rw [WFreg, List.all_cons, Bool.and_eq_true] at h
      unfold regFind at hf
      cases hk : p.1 == k with
      | true => rw [hk] at hf; simp at hf; cases hf; exact h.1
      | false => rw [hk] at hf; simp at hf; exact ih h.2 hf

theorem scanToolsFor_eq {ts : List JValue} (hts : ts.all toolOk = true) (n : String) :
    scanToolsFor ts n = .ok (ts.any (toolMatches n)) := by
  induction ts with
  | nil => rfl
  | cons t rest ih =>
      rw [List.all_cons, Bool.and_eq_true] at hts
      obtain ⟨ht, hrest⟩ := hts
      obtain ⟨d, s, rfl, hg⟩ := toolOk_shape ht
      cases hs : s == n with
      | true =>
          simp [scanToolsFor, jGetItem, dictGetItem, hg, hs, toolMatches]
      | false =>
          simp [scanToolsFor, jGetItem, dictGetItem, hg, hs, toolMatches, ih hrest]

theorem scanConnectors_eq {cs : List Connector} (h : ∀ c ∈ cs, WFconn c = true) (n : String) :
    scanConnectors cs n = .ok (cs.find? fun c => hasToolNamed c n) := by
  induction cs with
  | nil => rfl
  | cons c rest ih =>
      have hc := getTools_allOk (h c (List.mem_cons_self c rest))
      have hrest := ih fun x hx => h x (List.mem_cons_of_mem c hx)
      cases hh : hasToolNamed c n with
      | true =>
          have hscan : scanToolsFor (get_tools c) n = .ok true := by
            rw [scanToolsFor_eq hc n]; exact congrArg Except.ok hh
          simp [scanConnectors, hscan, List.find?_cons_of_pos, hh]
      | false =>
          have hscan : scanToolsFor (get_tools c) n = .ok false := by
            rw [scanToolsFor_eq hc n]; exact congrArg Except.ok hh
          simp [scanConnectors, hscan, List.find?_cons_of_neg, hh, hrest]

theorem dictGet_dictSet_self (d : Dict) (k : String) (v : JValue) :
    dictGet (dictSet d k v) k = some v := by
  induction d with
  | nil => simp [dictSet, dictGet]
  | cons p rest ih =>
      unfold dictSet
      cases hk : p.1 == k with
      | true => simp [dictGet]
      | false => simp [dictGet, hk, ih]

theorem dictGet_dictSet_ne (d : Dict) (k m : String) (v : JValue) (h : ¬m = k) :
    dictGet (dictSet d k v) m = dictGet d m := by
  have h' : ¬k = m := fun hh => h hh.symm
  induction d with
  | nil => simp [dictSet, dictGet, h']
  | cons p rest ih =>
      unfold dictSet
      cases hk : p.1 == k with
      | true =>
          rw [beq_iff_eq] at hk
          subst hk
          simp [dictGet, h']
      | false => simp [dictGet, hk, ih]

theorem namespaceTool_ok {t : JValue} (h : toolOk t = true) (cname : String) :
    namespaceTool cname t = .ok (namespaceToolPure cname t) := by
  obtain ⟨d, s, rfl, hg⟩ := toolOk_shape h
  simp [namespaceTool, dictGetItem, hg, namespaceToolPure, toolNameStr, pyStr]

theorem namespacedLoop_eq {ts : List JValue} (h : ts.all toolOk = true) (cname : String) :
    get_namespaced_tools_loop cname ts = .ok (ts.map (namespaceToolPure cname)) := by
  induction ts with
  | nil => rfl
  | cons t rest ih =>
      rw [List.all_cons, Bool.and_eq_true] at h
      simp [get_namespaced_tools_loop, namespaceTool_ok h.1, ih h.2]

theorem get_namespaced_tools_eq {c : Connector} (h : WFconn c = true) :
    get_namespaced_tools c = .ok (namespacedCatalogSpec c) :=
  namespacedLoop_eq (getTools_allOk h) c.connector_name

theorem scanTools_hasToolNamed {c : Connector} (h : WFconn c = true) (n : String) :
    scanToolsFor (get_tools c) n = .ok (hasToolNamed c n) := by
  rw [scanToolsFor_eq (getTools_allOk h) n]; rfl

theorem resolve_dotted {r : Registry} (hwf : WFreg r = true) {t : String}
    (hd : strHasDot t = true) :
    get_connector_for_tool r t =
      .ok ((regFind r (splitDot1 t).1).bind fun c =>
        if hasToolNamed c (splitDot1 t).2 then some c else none) := by
  unfold get_connector_for_tool
  rw [hd]
  cases hg : regFind r (splitDot1 t).1 with
  | none => simp
  | some c =>
      have hscan := scanTools_hasToolNamed (WFreg_find hwf hg) (splitDot1 t).2
      cases hh : hasToolNamed c (splitDot1 t).2 with
      | true =>
          rw [hh] at hscan
          simp [hscan, hh]
      | false =>
          rw [hh] at hscan
          simp [hscan, hh]

theorem resolve_bare {r : Registry} (hwf : WFreg r = true) {t : String}
    (hd : strHasDot t = false) :
    get_connector_for_tool r t =
      .ok ((r.map Prod.snd).find? fun c => hasToolNamed c t) := by
  unfold get_connector_for_tool
  rw [hd]
  simp only [Bool.false_eq_true, if_false]
  exact scanConnectors_eq (fun c hc => WFreg_mem_snd hwf hc) t

theorem regFind_regSet_self (r : Registry) (k : String) (v : Connector) :
    regFind (regSet r k v) k = some v := by
  induction r with
  | nil => simp [regSet, regFind]
  | cons p rest ih =>
      unfold regSet
      cases hk : p.1 == k with
      | true => simp [regFind]
      | false => simp [regFind, hk, ih]

theorem regFind_regSet_ne (r : Registry) (k m : String) (v : Connector) (h : ¬m = k) :
    regFind (regSet r k v) m = regFind r m := by
  have h' : ¬k = m := fun hh => h hh.symm
  induction r with
  | nil => simp [regSet, regFind, h']
  | cons p rest ih =>
      unfold regSet
      cases hk : p.1 == k with
      | true =>
          rw [beq_iff_eq] at hk
          subst hk
          simp [regFind, h']
      | false => simp [regFind, hk, ih]

theorem regFind_regDel_ne (r : Registry) (k m : String) (h : ¬m = k) :
    regFind (regDel r k) m = regFind r m := by
  have h' : ¬k = m := fun hh => h hh.symm
  induction r with
  | nil => simp [regDel]
  | cons p rest ih =>
      unfold regDel
      cases hk : p.1 == k with
      | true =>
          rw [beq_iff_eq] at hk
          subst hk
          simp [regFind, h']
      | false => simp [regFind, hk, ih]

theorem regFind_eq_none_of_not_mem {r : Registry} {k : String}
    (h : k ∉ r.map Prod.fst) : regFind r k = none := by
  induction r with
  | nil => rfl
  | cons p rest ih =>
      rw [List.map_cons, List.mem_cons] at h
      push_neg at h
      unfold regFind
      cases hk : p.1 == k with
      | true => rw [beq_iff_eq] at hk; exact absurd hk.symm h.1
      | false => simp [ih h.2]

theorem regFind_regDel_self {r : Registry} (hnd : (r.map Prod.fst).Nodup) (k : String) :
    regFind (regDel r k) k = none := by
  induction r with
  | nil => rfl
  | cons p rest ih =>
      rw [List.map_cons, List.nodup_cons] at hnd
      unfold regDel
      cases hk : p.1 == k with
      | true =>
          rw [beq_iff_eq] at hk
          subst hk
          exact regFind_eq_none_of_not_mem hnd.1
      | false => simp [regFind, hk, ih hnd.2]

theorem regSet_of_find_none {r : Registry} {k : String} (h : regFind r k = none)
    (v : Connector) : regSet r k v = r ++ [(k, v)] := by
  induction r with
  | nil => rfl
  | cons p rest ih =>
      unfold regFind at h
      unfold regSet
      cases hk : p.1 == k with
      | true => rw [hk] at h; simp at h
      | false =>
          rw [hk] at h
          simp at h ⊢
          exact ih h

theorem resolveEntryBare_regDel {r : Registry} {t vname k : String} {vc : Connector}
    (h : resolveEntryBare r t = some (vname, vc)) (hne : ¬vname = k) :
    resolveEntryBare (regDel r k) t = some (vname, vc) := by
  induction r with
  | nil => exact absurd h (by simp [resolveEntryBare])
  | cons p rest ih =>
      unfold resolveEntryBare at h
      unfold regDel
      cases hm : hasToolNamed p.2 t with
      | true =>
          rw [hm] at h
          simp at h
          cases hk : p.1 == k with
          | true =>
              rw [beq_iff_eq] at hk
              rw [h] at hk
              exact absurd hk hne
          | false =>
              subst h
              simp [resolveEntryBare, hm]
      | false =>
          rw [hm] at h
          simp at h
          cases hk : p.1 == k with
          | true => simpa using h
          | false => simp [resolveEntryBare, hm, ih h]

theorem resolveEntryBare_append {r : Registry} {t : String} {x : String × Connector}
    (h : resolveEntryBare r t = some x) (y : String × Connector) :
    resolveEntryBare (r ++ [y]) t = some x := by
  induction r with
  | nil => exact absurd h (by simp [resolveEntryBare])
  | cons p rest ih =>
      rw [List.cons_append]
      unfold resolveEntryBare at h ⊢
      cases hm : hasToolNamed p.2 t with
      | true =>
          rw [hm] at h
          simp at h
          simp [h]
      | false =>
          rw [hm] at h
          simp at h ⊢
          exact ih h

theorem resolveEntryBare_find {r : Registry} {t : String} :
    ((r.map Prod.snd).find? fun c => hasToolNamed c t) =
      (resolveEntryBare r t).map Prod.snd := by
  induction r with
  | nil => rfl
  | cons p rest ih =>
      unfold resolveEntryBare
      rw [List.map_cons]
      cases hm : hasToolNamed p.2 t with
      | true => simp [List.find?_cons_of_pos, hm]
      | false => simp [List.find?_cons_of_neg, hm, ih]

theorem get_connector_for_tool_eq_resolveEntry {r : Registry} (hwf : WFreg r = true)
    (t : String) :
    get_connector_for_tool r t = .ok ((resolveEntry r t).map Prod.snd) := by
  unfold resolveEntry
  cases hd : strHasDot t with
  | true =>
      rw [resolve_dotted hwf hd]
      cases hg : regFind r (splitDot1 t).1 with
      | none => simp
      | some c =>
          cases hh : hasToolNamed c (splitDot1 t).2 with
          | true => simp [hh]
          | false => simp [hh]
  | false =>
      rw [resolve_bare hwf hd, resolveEntryBare_find]
      simp

/-- C1: for every tool name containing the namespace separator `'.'`,
`get_connector_for_tool` splits it at the first occurrence into
`(unit_name, bare_name)` (`splitDot1`) and returns a unit exactly when
that unit is registered under `unit_name` and its own un-namespaced
catalog declares a tool named exactly `bare_name`; in every other case —
unit not registered, or registered but not declaring `bare_name` —
resolution returns nothing rather than redirecting to another unit. -/
theorem C1_namespaced_resolution (r : Registry) (t : String)
    (hwf : WFreg r = true) (hd : strHasDot t = true) :
    (∀ c, get_connector_for_tool r t = .ok (some c) ↔
      regFind r (splitDot1 t).1 = some c ∧ hasToolNamed c (splitDot1 t).2 = true) ∧
    ((∀ c, regFind r (splitDot1 t).1 = some c →
        hasToolNamed c (splitDot1 t).2 = false) →
      get_connector_for_tool r t = .ok none) := by
  rw [resolve_dotted hwf hd]
  constructor
  · intro c
    cases hg : regFind r (splitDot1 t).1 with
    | none => simp
    | some c' =>
        cases hh : hasToolNamed c' (splitDot1 t).2 with
        | true =>
            constructor
            · intro he
              simp [hh] at he
              subst he
              exact ⟨rfl, hh⟩
            · rintro ⟨he, _⟩
              simp at he
              subst he
              simp [hh]
        | false =>
            constructor
            · intro he
              simp [hh] at he
            · rintro ⟨he, hc⟩
              simp at he
              subst he
              rw [hh] at hc
              cases hc
  · intro hno
    cases hg : regFind r (splitDot1 t).1 with
    | none => rfl
    | some c' => simp [hno c' hg]

/-- Witness for C1 at the concrete registry `regST`: `slack.send_message`
resolves to the slack unit, and the characterization's hypotheses hold. -/
theorem C1_namespaced_resolution_witness :
    WFreg regST = true ∧ strHasDot "slack.send_message" = true ∧
    get_connector_for_tool regST "slack.send_message" = .ok (some slackC) :=
  ⟨by decide, by decide,
    ((C1_namespaced_resolution regST "slack.send_message" (by decide) (by decide)).1
      slackC).mpr ⟨rfl, by decide⟩⟩

/-- C2: for every tool name without the namespace separator,
`get_connector_for_tool` scans registered units in registration order and
returns the first unit whose catalog declares a tool with that exact name
(`List.find?` over the registry's values); hence with two units both
declaring `X` the one registered first wins, and with no declaring unit
resolution returns nothing. -/
theorem C2_bare_first_match (r : Registry) (t : String)
    (hwf : WFreg r = true) (hd : strHasDot t = false) :
    get_connector_for_tool r t =
      .ok ((r.map Prod.snd).find? fun c => hasToolNamed c t) ∧
    ((∀ c ∈ r.map Prod.snd, hasToolNamed c t = false) →
      get_connector_for_tool r t = .ok none) := by
  refine ⟨resolve_bare hwf hd, fun hall => ?_⟩
  rw [resolve_bare hwf hd]
  rw [List.find?_eq_none.mpr fun c hc => by simp [hall c hc]]

/-- Witness for C2 at `regDup`, where `u1` and `u2` both declare `x`:
the bare name `x` resolves to the first-registered unit `u1`. -/
theorem C2_bare_first_match_witness :
    WFreg regDup = true ∧ strHasDot "x" = false ∧
    hasToolNamed c1x "x" = true ∧ hasToolNamed c2x "x" = true ∧
    get_connector_for_tool regDup "x" = .ok (some c1x) :=
  ⟨by decide, by decide, by decide, by decide,
    (C2_bare_first_match regDup "x" (by decide) (by decide)).1⟩

/-- C6: `get_all_tools` iterates the registered units in registration
order and, for each unit, appends first its namespaced catalog and then
its bare catalog. The concrete slack/tasks scenario is checked in the
witness. -/
theorem C6_dual_catalog (r : Registry) (hwf : WFreg r = true) :
    get_all_tools r =
      .ok ((r.map Prod.snd).flatMap fun c => namespacedCatalogSpec c ++ get_tools c) := by
  unfold get_all_tools
  have hgen : ∀ cs : List Connector, (∀ c ∈ cs, WFconn c = true) →
      get_all_tools_loop cs =
        .ok (cs.flatMap fun c => namespacedCatalogSpec c ++ get_tools c) := by
    intro cs
    induction cs with
    | nil => intro _; rfl
    | cons c rest ih =>
        intro h
        have hc := h c (List.mem_cons_self c rest)
        have hrest := ih fun x hx => h x (List.mem_cons_of_mem c hx)
        simp [get_all_tools_loop, get_namespaced_tools_eq hc, hrest, List.flatMap_cons]
  exact hgen _ fun c hc => WFreg_mem_snd hwf hc

/-- Witness for C6: with exactly `slack` (declaring `send_message`) and
`tasks` (declaring `create_task`) registered in that order, the aggregated
catalog is the four descriptors `slack.send_message`, `send_message`,
`tasks.create_task`, `create_task`. -/
theorem C6_dual_catalog_witness :
    WFreg regST = true ∧
    get_all_tools regST =
      .ok [mkTool "slack.send_message" "Send a message to a Slack channel",
        mkTool "send_message" "Send a message to a Slack channel",
        mkTool "tasks.create_task" "Create a task",
        mkTool "create_task" "Create a task"] :=
  ⟨by decide, C6_dual_catalog regST (by decide)⟩

/-- C9: `get_namespaced_tools` returns the same sequence of descriptors as
`get_tools` except that each descriptor's `"name"` is rewritten to
`"<unit_name>.<tool_name>"`; every other field of each descriptor is
unchanged. The call reads only the loaded manifest and builds the output
from copies (`tool.copy()`), which the embedding renders as a pure
function of the connector — the un-namespaced catalog `get_tools c` is
untouched by construction. -/
theorem C9_namespaced_rewrite (c : Connector) (hwf : WFconn c = true) :
    get_namespaced_tools c = .ok (namespacedCatalogSpec c) ∧
    (namespacedCatalogSpec c).length = (get_tools c).length ∧
    (∀ i, i < (get_tools c).length →
      ∃ d s, (get_tools c)[i]? = some (.vobj d) ∧
        dictGet d "name" = some (.vstr s) ∧
        (namespacedCatalogSpec c)[i]? =
          some (.vobj (dictSet d "name" (.vstr (c.connector_name ++ "." ++ s)))) ∧
        dictGet (dictSet d "name" (.vstr (c.connector_name ++ "." ++ s))) "name" =
          some (.vstr (c.connector_name ++ "." ++ s)) ∧
        (∀ k, ¬k = "name" →
          dictGet (dictSet d "name" (.vstr (c.connector_name ++ "." ++ s))) k =
            dictGet d k)) := by
  refine ⟨get_namespaced_tools_eq hwf, by simp [namespacedCatalogSpec], ?_⟩
  intro i hi
  have hall := getTools_allOk hwf
  have hmem : (get_tools c)[i] ∈ get_tools c := List.getElem_mem hi
  have hok : toolOk ((get_tools c)[i]) = true := List.all_eq_true.mp hall _ hmem
  obtain ⟨d, s, heq, hg⟩ := toolOk_shape hok
  refine ⟨d, s, ?_, hg, ?_, dictGet_dictSet_self d "name" _, ?_⟩
  · rw [List.getElem?_eq_getElem hi, heq]
  · rw [namespacedCatalogSpec, List.getElem?_map, List.getElem?_eq_getElem hi, heq]
    simp [namespaceToolPure, toolNameStr, hg]
  · intro k hk
    exact dictGet_dictSet_ne d "name" k _ hk

/-- Witness for C9 at the slack connector. -/
theorem C9_namespaced_rewrite_witness :
    WFconn slackC = true ∧
    get_namespaced_tools slackC =
      .ok [mkTool "slack.send_message" "Send a message to a Slack channel"] :=
  ⟨by decide, (C9_namespaced_rewrite slackC (by decide)).1⟩

/-- C10: for a tool name containing `'.'`, resolution only ever considers
the namespaced interpretation — the bare catalogs are never scanned — so a
registered tool whose own bare name contains a `'.'` is unreachable by
that name whenever its prefix is not a registered unit declaring the
remaining suffix: `get_connector_for_tool` returns nothing. -/
theorem C10_dotted_only_namespaced (r : Registry) (t : String)
    (p : String × Connector) (hwf : WFreg r = true) (hd : strHasDot t = true)
    (hp : p ∈ r) (hpt : hasToolNamed p.2 t = true)
    (hno : ∀ c, regFind r (splitDot1 t).1 = some c →
      hasToolNamed c (splitDot1 t).2 = false) :
    get_connector_for_tool r t = .ok none := by
  rw [resolve_dotted hwf hd]
  cases hg : regFind r (splitDot1 t).1 with
  | none => rfl
  | some c' => simp [hno c' hg]

/-- Witness for C10: `weirdC` declares a tool literally named
`weird.name`, yet resolving `weird.name` yields nothing because no unit
`weird` is registered. -/
theorem C10_dotted_only_namespaced_witness :
    hasToolNamed weirdC "weird.name" = true ∧
    regFind regW "weird" = none ∧
    get_connector_for_tool regW "weird.name" = .ok none :=
  ⟨by decide, rfl,
    C10_dotted_only_namespaced regW "weird.name" ("u", weirdC) (by decide) (by decide)
      (List.mem_cons_self _ _) (by decide) (fun c h => nomatch h)⟩

/-- C3 (amended): for every call through the façade that resolves to a
unit, a dict returned by the unit's `execute` — even one carrying an
`"error"` field — is wrapped as `success = true` with the payload
preserved in `result`; only a raised fault yields `success = false`, with
the fault's message embedded (`"Tool not found: ..."` for `ValueError`,
`"Tool execution failed: ..."` otherwise) and never propagated —
`call_tool` is total, so every path terminates in a `ToolCallResponse`.
The original claim's `success = false` for returned error payloads is
refuted by `C3_counterexample`. -/
theorem C3_facade_error_envelope (st : AuthStoreSt) (r : Registry)
    (req : ToolCallRequest) (c : Connector)
    (hres : get_connector_for_tool r req.tool_name = .ok (some c)) :
    (∀ d, c.exec (if strHasDot req.tool_name then (splitDot1 req.tool_name).2
        else req.tool_name) req.parameters (computeAuth st req) = .ok d →
      call_tool st r req = ⟨true, d, none⟩) ∧
    (∀ e, c.exec (if strHasDot req.tool_name then (splitDot1 req.tool_name).2
        else req.tool_name) req.parameters (computeAuth st req) = .error e →
      call_tool st r req = ⟨false, [], some (respErrMsg e)⟩) := by
  constructor
  · intro d hd
    unfold call_tool execute_tool
    rw [hres]
    simp [hd]
  · intro e he
    unfold call_tool execute_tool
    rw [hres]
    simp [he]

/-- Counterexample to C3 as stated: the registered unit `u`'s `execute`
returns the map `{"error": "boom"}`, yet the façade reports
`success = true` with that map as the result — not `success = false`. -/
theorem C3_counterexample :
    (call_tool stEmpty regMix ⟨"u.etool", [], none⟩).success = true ∧
    (call_tool stEmpty regMix ⟨"u.etool", [], none⟩).result = [("error", .vstr "boom")] ∧
    dictGet [("error", .vstr "boom")] "error" = some (.vstr "boom") :=
  ⟨rfl, rfl, rfl⟩

/-- Witness for C3 (amended): a raising unit surfaces as an unsuccessful
call with its message embedded; an error-returning unit surfaces as a
successful call with the payload preserved. -/
theorem C3_facade_error_envelope_witness :
    get_connector_for_tool regMix "w.rtool" = .ok (some raiseConn) ∧
    call_tool stEmpty regMix ⟨"w.rtool", [], none⟩ =
      ⟨false, [], some "Tool execution failed: kaboom"⟩ ∧
    call_tool stEmpty regMix ⟨"u.etool", [], none⟩ =
      ⟨true, [("error", .vstr "boom")], none⟩ :=
  ⟨rfl,
    (C3_facade_error_envelope stEmpty regMix ⟨"w.rtool", [], none⟩ raiseConn rfl).2
      (.otherError "kaboom") rfl,
    (C3_facade_error_envelope stEmpty regMix ⟨"u.etool", [], none⟩ errConn rfl).1
      [("error", .vstr "boom")] rfl⟩

/-- C4 (amended): when a truthy credential context is supplied and names a
stored user, the façade derives a unit name from the tool name only for
namespaced names — the prefix before the first `'.'`
(`tool_name.split('.')[0]`), when non-empty — and fetches the stored
credentials for `(context, prefix)`; for a bare tool name no unit name is
derived and no credentials are fetched (`auth_data` stays `None`),
regardless of what resolution would return. The original claim's
bare-name fetch is refuted by `C4_counterexample`. -/
theorem C4_credential_derivation (st : AuthStoreSt) (req : ToolCallRequest)
    (uid : String) (udata : Dict)
    (hu : req.user_id = some uid) (hne : strTruthy uid = true)
    (hget : get_user st uid = some udata) (hud : udata.isEmpty = false) :
    (strHasDot req.tool_name = true → strTruthy (splitDot1 req.tool_name).1 = true →
      computeAuth st req = get_connector_credentials st uid (splitDot1 req.tool_name).1) ∧
    (strHasDot req.tool_name = false → computeAuth st req = none) := by
  constructor
  · intro hdot hpre
    unfold computeAuth
    rw [hu]
    simp [hne, hget, hud, hdot, hpre]
  · intro hdot
    unfold computeAuth
    rw [hu]
    simp [hne, hget, hud, hdot]

/-- Counterexample to C4 as stated: user `u1` is stored, credentials for
`(u1, slack)` exist, the bare name `send_message` resolves to the slack
unit — yet the façade computes no `auth_data` for the call. -/
theorem C4_counterexample :
    computeAuth stC4 ⟨"send_message", [], some "u1"⟩ = none ∧
    get_connector_credentials stC4 "u1" "slack" = some tokDict ∧
    get_connector_for_tool regST "send_message" = .ok (some slackC) :=
  ⟨rfl, rfl, rfl⟩

/-- Witness for C4 (amended): the namespaced call fetches the stored
credentials for `(u1, slack)`; the bare call fetches nothing. -/
theorem C4_credential_derivation_witness :
    computeAuth stC4 ⟨"slack.send_message", [], some "u1"⟩ = some tokDict ∧
    computeAuth stC4 ⟨"send_message", [], some "u1"⟩ = none :=
  ⟨((C4_credential_derivation stC4 ⟨"slack.send_message", [], some "u1"⟩ "u1"
      [("user_id", .vstr "u1")] rfl (by decide) rfl (by decide)).1 (by decide)
      (by decide)).trans rfl,
    (C4_credential_derivation stC4 ⟨"send_message", [], some "u1"⟩ "u1"
      [("user_id", .vstr "u1")] rfl (by decide) rfl (by decide)).2 (by decide)⟩

/-- C5 (amended): manifest loading fails with the missing-manifest error
when no manifest exists for the unit, fails with the parse error when the
content is not parseable JSON, and otherwise returns the parsed object
unvalidated — in particular a `tools` entry without a `"name"` is accepted
at load time (`C5_counterexample`); a manifest without a `tools` list
yields a unit with zero tools rather than an error. -/
theorem C5_manifest_loading :
    (∀ n, load_manifest none n =
      .error (.fileNotFoundError ("No manifest.json found for connector " ++ n))) ∧
    (∀ n m, load_manifest (some (.error m)) n = .error (.jsonDecodeError m)) ∧
    (∀ n d, load_manifest (some (.ok d)) n = .ok d) ∧
    (∀ c : Connector, dictGet c.manifest "tools" = none → get_tools c = []) := by
  refine ⟨fun n => rfl, fun n m => rfl, fun n d => rfl, fun c h => ?_⟩
  unfold get_tools
  rw [h]

/-- Counterexample to C5 as stated: `badManifest` parses but is not a
well-formed catalog (its only tool entry lacks a `"name"`), yet loading
succeeds instead of failing with a manifest-invalid error. -/
theorem C5_counterexample :
    load_manifest (some (.ok badManifest)) "nameless" = .ok badManifest ∧
    manifestToolsOk badManifest = false ∧
    toolOk namelessTool = false :=
  ⟨rfl, rfl, rfl⟩

/-- Witness for C5 (amended): a connector with no `tools` entry has zero
tools, and a missing manifest file fails with the missing-manifest error. -/
theorem C5_manifest_loading_witness :
    dictGet noToolsConn.manifest "tools" = none ∧ get_tools noToolsConn = [] ∧
    load_manifest none "slack" =
      .error (.fileNotFoundError "No manifest.json found for connector slack") :=
  ⟨rfl, C5_manifest_loading.2.2.2 noToolsConn rfl, C5_manifest_loading.1 "slack"⟩

theorem load_all_fold {fs : String → Option UnitEnv} {n : String} {c : Connector}
    (hok : load_connector1 fs n = .ok c) :
    ∀ (dirs : List String) (reg : Registry),
      ((n ∈ dirs ∧ startsWithUnderscore n = false) ∨ regFind reg n = some c) →
      regFind (dirs.foldl (load_all_step fs) reg) n = some c := by
  intro dirs
  induction dirs with
  | nil =>
      intro reg h
      rcases h with ⟨hmem, _⟩ | hreg
      · exact absurd hmem (List.not_mem_nil n)
      · exact hreg
  | cons d ds ih =>
      intro reg h
      rw [List.foldl_cons]
      rcases h with ⟨hmem, hnu⟩ | hreg
      · rcases List.mem_cons.mp hmem with rfl | hmem'
        · refine ih _ (Or.inr ?_)
          simp [load_all_step, hnu, hok, regFind_regSet_self]
        · exact ih _ (Or.inl ⟨hmem', hnu⟩)
      · refine ih _ (Or.inr ?_)
        cases hu : startsWithUnderscore d with
        | true => simpa [load_all_step, hu] using hreg
        | false =>
            cases hl : load_connector1 fs d with
            | ok c' =>
                by_cases hdn : d = n
                · subst hdn
                  rw [hok] at hl
                  cases hl
                  simp [load_all_step, hu, hok, regFind_regSet_self]
                · rw [load_all_step, if_neg (by simp [hu]), hl]
                  rw [regFind_regSet_ne reg d n c' fun hh => hdn hh.symm]
                  exact hreg
            | error e => simpa [load_all_step, hu, hl] using hreg

/-- C7: `_load_connectors` attempts every discoverable candidate and—
because a failing `_load_connector` is caught and skipped—every candidate
that loads successfully still ends up registered, no matter how the other
candidates fail; `_load_connector` itself fails with the file-not-found
error when no `connector.py` exists for the name, and with the
attribute error when the module does not expose the class derived by the
naming convention (`deriveClassName`). -/
theorem C7_best_effort_loading (fs : String → Option UnitEnv) (dirs : List String)
    (n : String) (c : Connector)
    (hmem : n ∈ dirs) (hnu : startsWithUnderscore n = false)
    (hok : load_connector1 fs n = .ok c) :
    regFind (load_all fs dirs) n = some c ∧
    (∀ m, fs m = none →
      load_connector1 fs m = .error (.fileNotFoundError ("No connector.py found for " ++ m))) ∧
    (∀ m env, fs m = some env → env.importable = true → env.execFault = none →
      env.attrs.contains (deriveClassName m) = false →
      load_connector1 fs m =
        .error (.attributeError ("No " ++ deriveClassName m ++ " class found in " ++ m))) := by
  refine ⟨load_all_fold hok dirs [] (Or.inl ⟨hmem, hnu⟩), ?_, ?_⟩
  · intro m hm
    simp [load_connector1, hm]
  · intro m env hm himp hexec hattr
    simp only [load_connector1, hm, himp, hexec, Bool.not_true, Bool.false_eq_true,
      if_false]
    rw [hattr]
    simp

/-- Witness for C7 at the concrete scan `dirs7` over `fs7`: `good_two`
still registers although `broken` (module without the expected class) and
`missing_mod` (no module) fail earlier in the same scan. -/
theorem C7_best_effort_loading_witness :
    load_connector1 fs7 "broken" =
      .error (.attributeError "No BrokenConnector class found in broken") ∧
    load_connector1 fs7 "missing_mod" =
      .error (.fileNotFoundError "No connector.py found for missing_mod") ∧
    regFind (load_all fs7 dirs7) "good_two" = some g2C :=
  ⟨(C7_best_effort_loading fs7 dirs7 "good_two" g2C (by decide) (by decide) rfl).2.2
      "broken" ⟨true, none, ["UnrelatedClass"], .ok g1C⟩ rfl rfl rfl (by decide),
    (C7_best_effort_loading fs7 dirs7 "good_two" g2C (by decide) (by decide) rfl).2.1
      "missing_mod" rfl,
    (C7_best_effort_loading fs7 dirs7 "good_two" g2C (by decide) (by decide) rfl).1⟩

theorem regFind_append_single_ne (q : Registry) (k m : String) (v : Connector)
    (h : ¬m = k) : regFind (q ++ [(k, v)]) m = regFind q m := by
  have h' : ¬k = m := fun hh => h hh.symm
  induction q with
  | nil => simp [regFind, h']
  | cons p rest ih =>
      rw [List.cons_append]
      unfold regFind
      cases hm : p.1 == m with
      | true => simp
      | false => simp [hm, ih]

theorem regFind_append_single_self {q : Registry} {k : String}
    (h : regFind q k = none) (v : Connector) :
    regFind (q ++ [(k, v)]) k = some v := by
  induction q with
  | nil => simp [regFind]
  | cons p rest ih =>
      unfold regFind at h
      rw [List.cons_append]
      unfold regFind
      cases hk : p.1 == k with
      | true => rw [hk] at h; simp at h
      | false =>
          rw [hk] at h
          simp [hk]
          exact ih h

/-- C8 (amended): `reload_connector name` removes the existing entry for
`name` (if present) and then re-loads it. On failure exactly that unit is
absent; on success the fresh unit is registered under `name`. In both
outcomes every other unit's registry entry is unchanged, and every tool
name that resolved to another unit still resolves to that same unit
(`resolveEntry` is entry-level resolution, remembering the registry key —
the rendering of Python object identity; on well-formed registries it is
what `get_connector_for_tool` computes, per the last conjunct). What the
original claim adds — that other units' resolvability is entirely
unchanged — fails: a bare name whose first match was the reloaded unit can
migrate to a later unit, because reload re-inserts at the end of the
registration order (`C8_counterexample`). -/
theorem C8_reload_isolation (fs : String → Option UnitEnv) (r : Registry)
    (name : String) (hnd : (r.map Prod.fst).Nodup) :
    (∀ e, (reload_connector fs r name).2 = some e →
      regFind (reload_connector fs r name).1 name = none) ∧
    (∀ c, load_connector1 fs name = .ok c →
      (reload_connector fs r name).2 = none ∧
      regFind (reload_connector fs r name).1 name = some c) ∧
    (∀ m, ¬m = name → regFind (reload_connector fs r name).1 m = regFind r m) ∧
    (∀ t vname vc, ¬vname = name → resolveEntry r t = some (vname, vc) →
      resolveEntry (reload_connector fs r name).1 t = some (vname, vc)) ∧
    (∀ t, WFreg r = true →
      get_connector_for_tool r t = .ok ((resolveEntry r t).map Prod.snd)) := by
  have hr1 : regFind (if (regFind r name).isSome then regDel r name else r) name = none := by
    cases hf : regFind r name with
    | none => simp [hf]
    | some c0 => simp [hf, regFind_regDel_self hnd name]
  have hr1ne : ∀ m, ¬m = name →
      regFind (if (regFind r name).isSome then regDel r name else r) m = regFind r m := by
    intro m hm
    cases hf : regFind r name with
    | none => simp [hf]
    | some c0 => simp [hf, regFind_regDel_ne r name m hm]
  have hfstok : ∀ c, load_connector1 fs name = .ok c →
      (reload_connector fs r name).1 =
        (if (regFind r name).isSome then regDel r name else r) ++ [(name, c)] := by
    intro c hl
    simp only [reload_connector, hl]
    exact regSet_of_find_none hr1 c
  have hfsterr : ∀ e, load_connector1 fs name = .error e →
      (reload_connector fs r name).1 =
        (if (regFind r name).isSome then regDel r name else r) := by
    intro e hl
    simp only [reload_connector, hl]
  have hne2 : ∀ m, ¬m = name →
      regFind (reload_connector fs r name).1 m = regFind r m := by
    intro m hm
    cases hl : load_connector1 fs name with
    | ok c =>
        rw [hfstok c hl, regFind_append_single_ne _ name m c hm]
        exact hr1ne m hm
    | error e =>
        rw [hfsterr e hl]
        exact hr1ne m hm
  refine ⟨?_, ?_, hne2, ?_, fun t hwf => get_connector_for_tool_eq_resolveEntry hwf t⟩
  · intro e he
    cases hl : load_connector1 fs name with
    | ok c => simp [reload_connector, hl] at he
    | error e' =>
        rw [hfsterr e' hl]
        exact hr1
  · intro c hl
    constructor
    · simp [reload_connector, hl]
    · rw [hfstok c hl]
      exact regFind_append_single_self hr1 c
  · intro t vname vc hvn hres
    unfold resolveEntry at hres ⊢
    cases hd : strHasDot t with
    | true =>
        rw [if_pos hd] at hres
        rw [if_pos rfl]
        cases hg : regFind r (splitDot1 t).1 with
        | none => rw [hg] at hres; simp at hres
        | some c0 =>
            rw [hg] at hres
            have hres' : (if hasToolNamed c0 (splitDot1 t).2 then
                some ((splitDot1 t).1, c0) else none) = some (vname, vc) := hres
            cases hh : hasToolNamed c0 (splitDot1 t).2 with
            | false => rw [hh] at hres'; simp at hres'
            | true =>
                rw [hh] at hres'
                simp at hres'
                obtain ⟨hv1, hv2⟩ := hres' 
                have hfind : regFind (reload_connector fs r name).1 (splitDot1 t).1 =
                    some c0 := by
                  rw [hv1, hne2 vname hvn, ← hv1]
                  exact hg
                subst hv2
                rw [hv1] at hfind
                simp [hfind, hh, hv1]
    | false =>
        rw [if_neg (by simp [hd])] at hres
        rw [if_neg (by simp)]
        have hb1 : resolveEntryBare
            (if (regFind r name).isSome then regDel r name else r) t =
              some (vname, vc) := by
          cases hf : regFind r name with
          | none => simpa [hf] using hres
          | some c0 => simpa [hf] using resolveEntryBare_regDel hres hvn
        cases hl : load_connector1 fs name with
        | ok c =>
            rw [hfstok c hl]
            exact resolveEntryBare_append hb1 (name, c)
        | error e =>
            rw [hfsterr e hl]
            exact hb1

/-- Counterexample to C8 as stated: `u1` and `u2` both declare `x`;
before reloading `u1` the bare name `x` resolves to `u1`, after the
(successful) reload it resolves to `u2` — another registered unit\'s
resolvability changed even though only `u1` was reloaded. -/
theorem C8_counterexample :
    get_connector_for_tool regDup "x" = .ok (some c1x) ∧
    (reload_connector fs8 regDup "u1").2 = none ∧
    get_connector_for_tool (reload_connector fs8 regDup "u1").1 "x" = .ok (some c2x) ∧
    ¬c1x = c2x :=
  ⟨rfl, rfl, rfl,
    fun h => absurd (congrArg Connector.connector_name h) (by decide)⟩

/-- Witness for C8 (amended) at `regDup`: reloading `u1` succeeds, `u1`
is re-registered, `u2`\'s entry is untouched, and the namespaced name
`u2.x`, which resolved to the `u2` entry before, still does. -/
theorem C8_reload_isolation_witness :
    (regDup.map Prod.fst).Nodup ∧
    (reload_connector fs8 regDup "u1").2 = none ∧
    regFind (reload_connector fs8 regDup "u1").1 "u1" = some c1x ∧
    regFind (reload_connector fs8 regDup "u1").1 "u2" = regFind regDup "u2" ∧
    resolveEntry (reload_connector fs8 regDup "u1").1 "u2.x" = some ("u2", c2x) :=
  ⟨by decide,
    ((C8_reload_isolation fs8 regDup "u1" (by decide)).2.1 c1x rfl).1,
    ((C8_reload_isolation fs8 regDup "u1" (by decide)).2.1 c1x rfl).2,
    (C8_reload_isolation fs8 regDup "u1" (by decide)).2.2.1 "u2" (by decide),
    (C8_reload_isolation fs8 regDup "u1" (by decide)).2.2.2.1 "u2.x" "u2" c2x
      (by decide) rfl⟩

example : splitDot1 "slack.send_message" = ("slack", "send_message") := by decide
example : splitDot1 "a.b.c" = ("a", "b.c") := by decide
example : strHasDot "send_message" = false := by decide
example : pyCapitalize "gOOgle" = "Google" := by decide
example : deriveClassName "google_tasks" = "GoogleTasksConnector" := by decide
example : get_connector_for_tool regST "slack.send_message" = .ok (some slackC) := by rfl
example : get_connector_for_tool regST "send_message" = .ok (some slackC) := by rfl
example : get_connector_for_tool regST "slack.create_task" = .ok none := by rfl
example : get_connector_for_tool regST "unknown.tool" = .ok none := by rfl
example : get_connector_for_tool regST "unknown_bare_tool" = .ok none := by rfl
example : get_connector_for_tool regDup "x" = .ok (some c1x) := by rfl
example : get_connector_for_tool regDup "u2.x" = .ok (some c2x) := by rfl
example : get_connector_for_tool regW "weird.name" = .ok none := by rfl
example :
    get_all_tools regST =
      .ok [mkTool "slack.send_message" "Send a message to a Slack channel",
        mkTool "send_message" "Send a message to a Slack channel",
        mkTool "tasks.create_task" "Create a task",
        mkTool "create_task" "Create a task"] := by rfl
example :
    call_tool stEmpty regMix ⟨"u.etool", [], none⟩ =
      ⟨true, [("error", .vstr "boom")], none⟩ := by rfl
example :
    call_tool stEmpty regMix ⟨"w.rtool", [], none⟩ =
      ⟨false, [], some "Tool execution failed: kaboom"⟩ := by rfl
example : computeAuth stC4 ⟨"send_message", [], some "u1"⟩ = none := by rfl
example : computeAuth stC4 ⟨"slack.send_message", [], some "u1"⟩ = some tokDict := by rfl
example : load_all fs7 dirs7 = [("good_one", g1C), ("good_two", g2C)] := by rfl
example :
    (reload_connector fs8 regDup "u1").1 = [("u2", c2x), ("u1", c1x)] := by rfl
